import Mathlib

/-!
Verification of the SNIPER trading bot's core execution pipeline against its
specification. The definitions below are shallow embeddings of the Rust
sources under `src/bot/src/`: `rpc_manager.rs`, `nonce_manager.rs`,
`candidate_buffer.rs`, `buy_engine.rs`, `tx_builder.rs` and `types.rs`.
Machine floats (`f64`) are modelled as exact rationals `ℚ`; monotonic
instants as natural-number timestamps; fallible calls return `Except`;
network replies are passed in explicitly as parameters so that the purely
sequential control flow of each function can be studied.
-/

/-! ## String helpers

`classify_rpc_error` in `rpc_manager.rs` lower-cases the wire message and
runs case-insensitive substring tests (`msg.to_lowercase()`,
`msg.contains(..)`). We model strings of the wire protocol as `String`
and perform the substring search on their character lists. -/

/-- Does `l` start with `p`? (model of Rust `str::starts_with` used to
implement the substring search below). -/
def startsWithChars : List Char → List Char → Bool
  | [], _ => true
  | _ :: _, [] => false
  | p :: ps, c :: cs => p == c && startsWithChars ps cs

/-- Does `l` contain `pat` as a contiguous substring? (model of Rust
`str::contains`). -/
def containsChars (l pat : List Char) : Bool :=
  startsWithChars pat l ||
    match l with
    | [] => false
    | _ :: cs => containsChars cs pat

/-- Model of `message.to_lowercase()` as a character list. -/
def lowerChars (s : String) : List Char :=
  s.toList.map Char.toLower

/-- Case-already-lowered substring test on a lowered message. -/
def msgContains (m : List Char) (pat : String) : Bool :=
  containsChars m pat.toList

/-! ## RPC error classification (`rpc_manager.rs`) -/

/-- `RpcErrorType` from `rpc_manager.rs` (lines 23-45): classification of
RPC errors for proper handling. -/
inductive RpcErrorType where
  | alreadyProcessed
  | duplicateSignature
  | blockhashNotFound
  | transactionExpired
  | nodeBehind
  | slotSkew
  | rateLimited
  | tooManyRequests
  | timeout
  | other (msg : String)
  deriving DecidableEq, Repr

/-- Model of `solana_client::ClientError` as far as `classify_rpc_error`
inspects it: an RPC response error carrying a message, an IO error, a
reqwest error, or anything else. -/
inductive ClientError where
  | rpcResponseError (message : String)
  | ioError
  | reqwestError
  | otherKind (msg : String)
  deriving DecidableEq, Repr

/-- `classify_rpc_error` from `rpc_manager.rs` (lines 65-99): match on the
wire error message, lower-cased, with case-insensitive substring tests. -/
def classify_rpc_error (error : ClientError) : RpcErrorType :=
  match error with
  | ClientError.rpcResponseError message =>
    let msg := lowerChars message
    if msgContains msg "already processed"
        || msgContains msg "transaction was already processed" then
      RpcErrorType.alreadyProcessed
    else if msgContains msg "duplicate" && msgContains msg "signature" then
      RpcErrorType.duplicateSignature
    else if msgContains msg "blockhash not found"
        || msgContains msg "blockhash has expired" then
      RpcErrorType.blockhashNotFound
    else if msgContains msg "transaction expired"
        || msgContains msg "block height exceeded" then
      RpcErrorType.transactionExpired
    else if msgContains msg "node behind"
        || (msgContains msg "slot" && msgContains msg "behind") then
      RpcErrorType.nodeBehind
    else if msgContains msg "slot" && msgContains msg "skew" then
      RpcErrorType.slotSkew
    else if msgContains msg "rate limit" || msgContains msg "rate-limit" then
      RpcErrorType.rateLimited
    else if msgContains msg "too many requests"
        || msgContains msg "request limit" then
      RpcErrorType.tooManyRequests
    else
      RpcErrorType.other message
  | ClientError.ioError => RpcErrorType.timeout
  | ClientError.reqwestError => RpcErrorType.timeout
  | ClientError.otherKind msg => RpcErrorType.other msg

/-- `is_soft_success` from `rpc_manager.rs` (lines 102-105). -/
def is_soft_success (t : RpcErrorType) : Bool :=
  match t with
  | RpcErrorType.alreadyProcessed => true
  | RpcErrorType.duplicateSignature => true
  | _ => false

/-! ## Per-send configuration (`rpc_manager.rs`, `send_single_tx`) -/

/-- Solana commitment levels as used by the broadcaster. -/
inductive CommitmentLevel where
  | processed
  | confirmed
  | finalized
  deriving DecidableEq, Repr

/-- The fields of `RpcSendTransactionConfig` that `send_single_tx` sets. -/
structure RpcSendTransactionConfig where
  skipPreflight : Bool
  preflightCommitment : CommitmentLevel
  maxRetries : Nat
  deriving DecidableEq, Repr

/-- The constant `send_cfg` built in `send_single_tx`
(`rpc_manager.rs` lines 372-377). -/
def send_cfg : RpcSendTransactionConfig :=
  { skipPreflight := true
    preflightCommitment := CommitmentLevel.processed
    maxRetries := 3 }

/-! ## Per-(tx, endpoint) sub-task results -/

/-- A signature is 64 bytes; we model it as a list of byte values. -/
def Sig : Type := List Nat

instance : DecidableEq Sig := by
  unfold Sig
  infer_instance

/-- The outcome of one network submission
(`timeout(SEND_TIMEOUT, client.send_transaction_with_config(..))`):
the endpoint confirms with a signature, replies with an error, or the
per-send timeout elapses. -/
inductive SendOutcome where
  | success (sig : Sig)
  | clientError (e : ClientError)
  | timedOut
  deriving DecidableEq

/-- The synthetic soft-success signature built in
`broadcast_full_fanout`'s spawned task (`rpc_manager.rs` lines 333-337):
64 bytes, byte 0 = endpoint index (as `u8`), byte 1 = `0xFF`, rest zero. -/
def syntheticSignature (endpointIndex : Nat) : Sig :=
  List.ofFn (n := 64) fun j =>
    if (j : Nat) = 0 then endpointIndex % 256
    else if (j : Nat) = 1 then 0xFF
    else 0

/-- `send_single_tx` from `rpc_manager.rs` (lines 363-460), as a function
of the network outcome. On success it returns the signature; on an
endpoint error it returns `Err` (with the context string used in the
source) WITHOUT classifying the error or checking for soft success; on
timeout it returns `Err`. This path is used by the Pairwise,
ReplicateSingle and RoundRobin broadcast modes. -/
def send_single_tx (outcome : SendOutcome) : Except String Sig :=
  match outcome with
  | SendOutcome.success sig => Except.ok sig
  | SendOutcome.clientError _ =>
    Except.error "RPC send_transaction_with_config failed"
  | SendOutcome.timedOut => Except.error "RPC send timeout"

/-- The spawned sub-task body of `broadcast_full_fanout`
(`rpc_manager.rs` lines 310-355), as a function of the endpoint index and
the network outcome: on an endpoint error it classifies the error and, if
it is a soft success (`AlreadyProcessed` / `DuplicateSignature`), returns
`Ok` with the synthetic signature for the endpoint index. -/
def fanout_task (endpointIndex : Nat) (outcome : SendOutcome) : Except String Sig :=
  match outcome with
  | SendOutcome.success sig => Except.ok sig
  | SendOutcome.clientError e =>
    let errorType := classify_rpc_error e
    if is_soft_success errorType then
      Except.ok (syntheticSignature endpointIndex)
    else
      Except.error "RPC error"
  | SendOutcome.timedOut => Except.error "RPC send timeout"

/-- `wait_for_first_success` from `rpc_manager.rs` (lines 463-480): drain
the join set; the first `Ok(sig)` aborts the rest and is returned;
if every task returned `Err`, return the aggregate error. Task completion
order is modelled by the order of the result list. -/
def wait_for_first_success : List (Except String Sig) → Except String Sig
  | [] => Except.error "RpcManager: all send attempts failed"
  | Except.ok sig :: _ => Except.ok sig
  | Except.error _ :: rest => wait_for_first_success rest

/-- Helper: `isOk` on an `ok` value. -/
theorem isOk_ok (a : Sig) : (Except.ok a : Except String Sig).isOk = true := rfl

/-- Helper: `isOk` on an `error` value. -/
theorem isOk_error (e : String) :
    (Except.error e : Except String Sig).isOk = false := rfl

/-- `wait_for_first_success` succeeds exactly when some sub-task result in
the list is `Ok`. -/
theorem wait_for_first_success_isOk (rs : List (Except String Sig)) :
    (wait_for_first_success rs).isOk = true ↔
      ∃ r ∈ rs, (Except.isOk r) = true := by
  induction rs with
  | nil =>
    simp only [wait_for_first_success, isOk_error, List.not_mem_nil]
    simp
  | cons r rest ih =>
    cases r with
    | ok sig =>
      simp only [wait_for_first_success, isOk_ok, List.mem_cons]
      constructor
      · intro _
        exact ⟨Except.ok sig, Or.inl rfl, rfl⟩
      · intro _
        trivial
    | error e =>
      simp only [wait_for_first_success, List.mem_cons]
      rw [ih]
      constructor
      · rintro ⟨r, hr, hok⟩
        exact ⟨r, Or.inr hr, hok⟩
      · rintro ⟨r, hr | hr, hok⟩
        · subst hr
          rw [isOk_error] at hok
          cases hok
        · exact ⟨r, hr, hok⟩

/-! ## Broadcast modes and dispatch (`rpc_manager.rs`) -/

/-- Transactions are opaque to the broadcaster; we identify them by index. -/
abbrev Tx := Nat

/-- `BroadcastMode` configured on the `RpcManager`. -/
inductive BroadcastMode where
  | pairwise
  | replicateSingle
  | roundRobin
  | fullFanout
  deriving DecidableEq, Repr

/-- Number of sub-tasks each broadcast mode spawns
(`broadcast_pairwise` spawns `min |endpoints| |txs|`,
`broadcast_replicate_single` one per endpoint,
`broadcast_round_robin` one per transaction,
`broadcast_full_fanout` one per (endpoint, tx) pair). -/
def num_spawned (mode : BroadcastMode) (txs : List Tx)
    (endpoints : List String) : Nat :=
  match mode with
  | BroadcastMode.pairwise => min endpoints.length txs.length
  | BroadcastMode.replicateSingle => endpoints.length
  | BroadcastMode.roundRobin => txs.length
  | BroadcastMode.fullFanout => endpoints.length * txs.length

/-- The results of the spawned per-(tx, endpoint) sub-tasks, in spawn
order. `outcomes i` is the network reply observed by the `i`-th spawned
task. The Pairwise, ReplicateSingle and RoundRobin modes run each
sub-task through `send_single_tx`; FullFanout uses its inline task body
(`fanout_task`), whose endpoint index for the `i`-th spawned pair (outer
loop over endpoints, inner over transactions) is `i / |txs|`. -/
def sub_task_results (mode : BroadcastMode) (txs : List Tx)
    (endpoints : List String) (outcomes : Nat → SendOutcome) :
    List (Except String Sig) :=
  match mode with
  | BroadcastMode.fullFanout =>
    (List.range (endpoints.length * txs.length)).map fun i =>
      fanout_task (i / txs.length) (outcomes i)
  | m =>
    (List.range (num_spawned m txs endpoints)).map fun i =>
      send_single_tx (outcomes i)

/-- `RpcManager::send_on_many_rpc` (`rpc_manager.rs` lines 192-215): empty
endpoints or transactions are rejected up front; otherwise the configured
broadcast mode spawns its sub-tasks and the call returns the first
successful result via `wait_for_first_success`. -/
def send_on_many_rpc (mode : BroadcastMode) (txs : List Tx)
    (endpoints : List String) (outcomes : Nat → SendOutcome) :
    Except String Sig :=
  if endpoints.isEmpty || txs.isEmpty then
    Except.error "send_on_many_rpc: no endpoints or no transactions to send"
  else
    wait_for_first_success (sub_task_results mode txs endpoints outcomes)

/-- C5: for every call to the broadcaster's send operation with non-empty
transactions and endpoints, the call returns `Ok(sig)` if and only if at
least one of the spawned per-(tx, endpoint) sub-tasks returned `Ok` (which
for the FullFanout task body includes the soft-success synthetic-signature
returns); when no sub-task does so, the call returns `Err`. -/
theorem C5_broadcaster_ok_iff_subtask_ok (mode : BroadcastMode)
    (txs : List Tx) (endpoints : List String)
    (outcomes : Nat → SendOutcome)
    (htx : txs ≠ []) (hep : endpoints ≠ []) :
    (send_on_many_rpc mode txs endpoints outcomes).isOk = true ↔
      ∃ r ∈ sub_task_results mode txs endpoints outcomes,
        (Except.isOk r) = true := by
  unfold send_on_many_rpc
  rw [if_neg]
  · exact wait_for_first_success_isOk _
  · simp [List.isEmpty_iff, htx, hep]

/-- Witness for C5 at a concrete call: one transaction, one endpoint,
Pairwise mode, the single endpoint reply being a timeout. -/
theorem C5_broadcaster_ok_iff_subtask_ok_witness :
    ([0] : List Tx) ≠ [] ∧ (["http://e0"] : List String) ≠ [] ∧
      ((send_on_many_rpc BroadcastMode.pairwise [0] ["http://e0"]
          (fun _ => SendOutcome.timedOut)).isOk = true ↔
        ∃ r ∈ sub_task_results BroadcastMode.pairwise [0] ["http://e0"]
            (fun _ => SendOutcome.timedOut), (Except.isOk r) = true) :=
  ⟨by decide, by decide,
    C5_broadcaster_ok_iff_subtask_ok BroadcastMode.pairwise [0] ["http://e0"]
      (fun _ => SendOutcome.timedOut) (by decide) (by decide)⟩

/-- C1: evaluation of the code at the failing input. An endpoint reply
"Transaction was already processed" classifies as `AlreadyProcessed` and
`is_soft_success` holds for it, yet `send_single_tx` — the sub-task body
used by the Pairwise, ReplicateSingle and RoundRobin modes — returns
`Err` for it instead of reporting success. Only the FullFanout inline
task body returns the synthetic signature (byte 0 = endpoint index,
byte 1 = `0xFF`, remaining 62 bytes zero) the claim describes. -/
theorem C1_soft_success_dropped_by_send_single_tx :
    classify_rpc_error
        (ClientError.rpcResponseError "Transaction was already processed")
      = RpcErrorType.alreadyProcessed
    ∧ is_soft_success
        (classify_rpc_error
          (ClientError.rpcResponseError "Transaction was already processed"))
      = true
    ∧ send_single_tx
        (SendOutcome.clientError
          (ClientError.rpcResponseError "Transaction was already processed"))
      = Except.error "RPC send_transaction_with_config failed"
    ∧ fanout_task 2
        (SendOutcome.clientError
          (ClientError.rpcResponseError "Transaction was already processed"))
      = Except.ok (syntheticSignature 2)
    ∧ syntheticSignature 2 = 2 :: 255 :: List.replicate 62 0 := by
  refine ⟨by decide, by decide, rfl, rfl, by decide⟩

/-- C9 counterexample: the `RpcSendTransactionConfig` that
`send_single_tx` submits with sets the preflight commitment to
`Processed`, not `Confirmed` as the claim states. -/
theorem C9_preflight_commitment_is_processed :
    send_cfg.preflightCommitment = CommitmentLevel.processed
    ∧ CommitmentLevel.processed ≠ CommitmentLevel.confirmed := by
  refine ⟨rfl, by decide⟩

/-- C9 (amended): every per-(tx, endpoint) submission made by the
broadcaster uses skip-preflight = true, preflight commitment =
`Processed`, and max_retries = 3. -/
theorem C9_send_config_fields :
    send_cfg.skipPreflight = true
    ∧ send_cfg.preflightCommitment = CommitmentLevel.processed
    ∧ send_cfg.maxRetries = 3 :=
  ⟨rfl, rfl, rfl⟩

/-! ## Slot lease manager (`nonce_manager.rs`) -/

/-- Observable state of `IndexSlotManager`: the `free` queue of unleased
indices (`VecDeque`, head = front), the `in_use` set of leased indices
(`HashSet`, modelled as a duplicate-free list), and the semaphore's
available permit count. -/
structure SlotManagerState where
  free : List Nat
  inUse : List Nat
  permits : Nat
  deriving DecidableEq, Repr

/-- `IndexSlotManager::new(capacity)` (`nonce_manager.rs` lines 64-74):
free = `[0, capacity)`, empty `in_use`, semaphore initialised with
`capacity` permits. -/
def IndexSlotManager_new (capacity : Nat) : SlotManagerState :=
  { free := List.range capacity, inUse := [], permits := capacity }

/-- `IndexSlotManager::acquire_nonce` (`nonce_manager.rs` lines 78-108):
take a semaphore permit (suspending — modelled as `none` — when none is
available), pop the front of `free` (error — also `none` — when empty),
and insert the index into `in_use`; the permit stays owned by the
returned lease, so the available count drops by one. -/
def acquire_nonce (s : SlotManagerState) : Option (Nat × SlotManagerState) :=
  if s.permits = 0 then none
  else
    match s.free with
    | [] => none
    | idx :: rest =>
      some (idx, { free := rest, inUse := idx :: s.inUse, permits := s.permits - 1 })

/-- Modelled from the spec: `NonceManagerInner::return_index`, invoked by
`release_nonce` (`nonce_manager.rs` line 126), is missing from the
sources — the `NonceManagerInner` struct is constructed (lines 69-72) but
its declaration and methods are absent. Per the spec's release contract:
if `idx` is in the allocated set, remove it and push it to `free`;
otherwise the call is a no-op. -/
def return_index (idx : Nat) (s : SlotManagerState) : SlotManagerState :=
  if idx ∈ s.inUse then
    { s with inUse := s.inUse.erase idx, free := s.free ++ [idx] }
  else s

/-- `IndexSlotManager::release_nonce` (`nonce_manager.rs` lines 125-130):
`self.inner.return_index(idx).await` followed UNCONDITIONALLY by
`self.sem.add_permits(1)`. -/
def release_nonce (idx : Nat) (s : SlotManagerState) : SlotManagerState :=
  let s1 := return_index idx s
  { s1 with permits := s1.permits + 1 }

/-- `<IndexSlotManager as SlotManager>::release_index`
(`nonce_manager.rs` lines 252-258): unconditionally push `idx` onto the
back of `free` and add one permit; the allocated set is not consulted. -/
def release_index (idx : Nat) (s : SlotManagerState) : SlotManagerState :=
  { s with free := s.free ++ [idx], permits := s.permits + 1 }

/-- C7: evaluation of the code at the failing input. On a capacity-1
manager, acquire index 0 and release it twice: the second `release_nonce`
call is not a no-op — it adds a second semaphore permit (2 > capacity),
so double release differs from single release; and the second
`release_index` call re-queues index 0, leaving the free queue `[0, 0]`
with 2 permits. -/
theorem C7_release_is_not_idempotent :
    acquire_nonce (IndexSlotManager_new 1)
      = some (0, { free := [], inUse := [0], permits := 0 })
    ∧ release_nonce 0 { free := [], inUse := [0], permits := 0 }
      = { free := [0], inUse := [], permits := 1 }
    ∧ release_nonce 0 { free := [0], inUse := [], permits := 1 }
      = { free := [0], inUse := [], permits := 2 }
    ∧ release_nonce 0 (release_nonce 0 { free := [], inUse := [0], permits := 0 })
      ≠ release_nonce 0 { free := [], inUse := [0], permits := 0 }
    ∧ release_index 0 (release_index 0 { free := [], inUse := [0], permits := 0 })
      = { free := [0, 0], inUse := [0], permits := 2 } := by
  refine ⟨rfl, rfl, rfl, by decide, rfl⟩

/-! ## Candidate buffer (`candidate_buffer.rs`, `types.rs`) -/

/-- Account identifiers (`Pubkey`) are opaque 32-byte values; we model
them as naturals. -/
abbrev Mint := Nat

/-- `PremintCandidate` from `types.rs` (lines 8-15). -/
structure PremintCandidate where
  mint : Mint
  creator : Nat
  program : String
  slot : Nat
  timestamp : Nat
  deriving DecidableEq, Repr

/-- One stored buffer entry: the map key (the mint), the candidate, and
the `seen_at` instant. -/
abbrev BufEntry := Mint × PremintCandidate × Nat

/-- `CandidateBuffer` from `candidate_buffer.rs` (lines 29-37): a map by
mint (modelled as an entry list), a TTL, and a maximum size. Instants are
natural-number timestamps. -/
structure CandidateBuffer where
  map : List BufEntry
  ttl : Nat
  maxSize : Nat
  deriving DecidableEq, Repr

/-- `CandidateBuffer::new` (`candidate_buffer.rs` lines 41-47). -/
def CandidateBuffer.new (ttl maxSize : Nat) : CandidateBuffer :=
  { map := [], ttl := ttl, maxSize := maxSize }

/-- `CandidateBuffer::cleanup` (`candidate_buffer.rs` lines 93-105): if
TTL is zero expire everything; otherwise retain entries with
`now - seen_at < ttl` (`Instant::duration_since` saturates at zero, as
does `Nat` subtraction). Returns the new buffer and the removed count. -/
def CandidateBuffer.cleanup (now : Nat) (b : CandidateBuffer) :
    CandidateBuffer × Nat :=
  if b.ttl = 0 then ({ b with map := [] }, b.map.length)
  else
    let kept := b.map.filter fun e => now - e.2.2 < b.ttl
    ({ b with map := kept }, b.map.length - kept.length)

/-- Smallest `seen_at` among the entries, `none` for the empty map
(the key computed by `min_by_key` in `CandidateBuffer::push`). -/
def minSeenAux (m : Nat) : List BufEntry → Nat
  | [] => m
  | e :: es => minSeenAux (min m e.2.2) es

/-- Smallest `seen_at` of an entry list, as an option. -/
def minSeen : List BufEntry → Option Nat
  | [] => none
  | e :: es => some (minSeenAux e.2.2 es)

/-- Remove the first entry whose `seen_at` equals `m` (the entry
`min_by_key` designates: the first one attaining the minimum). -/
def eraseFirstSeen (m : Nat) : List BufEntry → List BufEntry
  | [] => []
  | e :: es => if e.2.2 = m then es else e :: eraseFirstSeen m es

/-- The eviction step of `CandidateBuffer::push`
(`candidate_buffer.rs` lines 60-69): remove the entry with the smallest
`seen_at`, if any. -/
def evictOldest (l : List BufEntry) : List BufEntry :=
  match minSeen l with
  | none => l
  | some m => eraseFirstSeen m l

/-- `CandidateBuffer::push` (`candidate_buffer.rs` lines 51-73): clean
expired entries, reject duplicates by mint, evict the oldest entry when
`len ≥ max_size > 0`, then insert `(c, now)` and return `true`. -/
def CandidateBuffer.push (c : PremintCandidate) (now : Nat)
    (b : CandidateBuffer) : Bool × CandidateBuffer :=
  let b1 := (CandidateBuffer.cleanup now b).1
  if b1.map.any (fun e => e.1 = c.mint) then (false, b1)
  else
    let b2 :=
      if b1.maxSize ≤ b1.map.length ∧ 0 < b1.maxSize then
        { b1 with map := evictOldest b1.map }
      else b1
    (true, { b2 with map := b2.map ++ [(c.mint, c, now)] })

/-- `CandidateBuffer::pop_best` (`candidate_buffer.rs` lines 77-89):
clean expired entries, then remove and return the entry with the smallest
`seen_at`. -/
def CandidateBuffer.pop_best (now : Nat) (b : CandidateBuffer) :
    Option PremintCandidate × CandidateBuffer :=
  let b1 := (CandidateBuffer.cleanup now b).1
  match minSeen b1.map with
  | none => (none, b1)
  | some m =>
    ((b1.map.find? fun e => e.2.2 = m).map (fun e => e.2.1),
      { b1 with map := eraseFirstSeen m b1.map })

/-- One buffer operation of the claim's operation language. -/
inductive BufOp where
  | pushOp (c : PremintCandidate) (now : Nat)
  | popBestOp (now : Nat)
  | cleanupOp (now : Nat)

/-- Apply one buffer operation. -/
def applyBufOp (b : CandidateBuffer) : BufOp → CandidateBuffer
  | BufOp.pushOp c now => (CandidateBuffer.push c now b).2
  | BufOp.popBestOp now => (CandidateBuffer.pop_best now b).2
  | BufOp.cleanupOp now => (CandidateBuffer.cleanup now b).1

/-- Apply a sequence of buffer operations from left to right. -/
def applyBufOps (b : CandidateBuffer) (ops : List BufOp) : CandidateBuffer :=
  ops.foldl applyBufOp b

/-- The running minimum is at most its initial accumulator. -/
theorem minSeenAux_le_init (l : List BufEntry) :
    ∀ a : Nat, minSeenAux a l ≤ a := by
  induction l with
  | nil => intro a; exact Nat.le_refl a
  | cons e es ih =>
    intro a
    exact Nat.le_trans (ih (min a e.2.2)) (Nat.min_le_left _ _)

/-- The running minimum is at most every entry's `seen_at`. -/
theorem minSeenAux_le_mem (l : List BufEntry) :
    ∀ a : Nat, ∀ e ∈ l, minSeenAux a l ≤ e.2.2 := by
  induction l with
  | nil => intro a e he; cases he
  | cons e es ih =>
    intro a e2 he2
    rcases List.mem_cons.mp he2 with h | h
    · subst h
      exact Nat.le_trans (minSeenAux_le_init es _) (Nat.min_le_right _ _)
    · exact ih (min a e.2.2) e2 h

/-- The running minimum is the accumulator or some entry's `seen_at`. -/
theorem minSeenAux_attained (l : List BufEntry) :
    ∀ a : Nat, minSeenAux a l = a ∨ ∃ e ∈ l, minSeenAux a l = e.2.2 := by
  induction l with
  | nil => intro a; exact Or.inl rfl
  | cons e es ih =>
    intro a
    rcases ih (min a e.2.2) with h | ⟨e2, he2, h⟩
    · rcases Nat.le_total a e.2.2 with hle | hle
      · left
        rw [show minSeenAux a (e :: es) = minSeenAux (min a e.2.2) es from rfl,
          h, Nat.min_eq_left hle]
      · right
        refine ⟨e, List.mem_cons_self e es, ?_⟩
        rw [show minSeenAux a (e :: es) = minSeenAux (min a e.2.2) es from rfl,
          h, Nat.min_eq_right hle]
    · right
      exact ⟨e2, List.mem_cons_of_mem e he2, h⟩

/-- `minSeen` on a nonempty list yields a value attained by some entry
and bounding every entry's `seen_at` below. -/
theorem minSeen_spec (l : List BufEntry) (hl : l ≠ []) :
    ∃ m, minSeen l = some m ∧ (∃ e ∈ l, e.2.2 = m) ∧ ∀ e ∈ l, m ≤ e.2.2 := by
  match l, hl with
  | e :: es, _ =>
    refine ⟨minSeenAux e.2.2 es, rfl, ?_, ?_⟩
    · rcases minSeenAux_attained es e.2.2 with h | ⟨e2, he2, h⟩
      · exact ⟨e, List.mem_cons_self e es, h.symm⟩
      · exact ⟨e2, List.mem_cons_of_mem e he2, h.symm⟩
    · intro e2 he2
      rcases List.mem_cons.mp he2 with h | h
      · subst h; exact minSeenAux_le_init es _
      · exact minSeenAux_le_mem es e.2.2 e2 h

/-- Removing the first entry with the designated `seen_at` shortens the
list by one, provided such an entry exists. -/
theorem eraseFirstSeen_length (m : Nat) (l : List BufEntry)
    (h : ∃ e ∈ l, e.2.2 = m) :
    (eraseFirstSeen m l).length + 1 = l.length := by
  induction l with
  | nil => rcases h with ⟨e, he, _⟩; cases he
  | cons e es ih =>
    by_cases hm : e.2.2 = m
    · simp [eraseFirstSeen, hm]
    · rcases h with ⟨e2, he2, h2⟩
      rcases List.mem_cons.mp he2 with h3 | h3
      · subst h3; exact absurd h2 hm
      · simp only [eraseFirstSeen, if_neg hm, List.length_cons]
        rw [← ih ⟨e2, h3, h2⟩]

/-- Cleanup preserves `maxSize`. -/
theorem cleanup_maxSize (now : Nat) (b : CandidateBuffer) :
    ((CandidateBuffer.cleanup now b).1).maxSize = b.maxSize := by
  unfold CandidateBuffer.cleanup
  split <;> rfl

/-- Cleanup never grows the map. -/
theorem cleanup_length_le (now : Nat) (b : CandidateBuffer) :
    ((CandidateBuffer.cleanup now b).1).map.length ≤ b.map.length := by
  unfold CandidateBuffer.cleanup
  split
  · exact Nat.zero_le _
  · exact List.length_filter_le _ _

/-- Every buffer operation preserves `maxSize`. -/
theorem applyBufOp_maxSize (b : CandidateBuffer) (op : BufOp) :
    (applyBufOp b op).maxSize = b.maxSize := by
  cases op with
  | pushOp c now =>
    show ((CandidateBuffer.push c now b).2).maxSize = b.maxSize
    unfold CandidateBuffer.push
    dsimp only
    split
    · exact cleanup_maxSize now b
    · split <;> simpa using cleanup_maxSize now b
  | popBestOp now =>
    show ((CandidateBuffer.pop_best now b).2).maxSize = b.maxSize
    unfold CandidateBuffer.pop_best
    dsimp only
    split
    · exact cleanup_maxSize now b
    · simpa using cleanup_maxSize now b
  | cleanupOp now => exact cleanup_maxSize now b

/-- Every buffer operation keeps the map within `maxSize`, provided
`maxSize` is positive. -/
theorem applyBufOp_length (b : CandidateBuffer) (op : BufOp)
    (hlen : b.map.length ≤ b.maxSize) (hpos : 0 < b.maxSize) :
    (applyBufOp b op).map.length ≤ b.maxSize := by
  cases op with
  | pushOp c now =>
    show ((CandidateBuffer.push c now b).2).map.length ≤ b.maxSize
    unfold CandidateBuffer.push
    dsimp only
    have hms := cleanup_maxSize now b
    have hle := Nat.le_trans (cleanup_length_le now b) hlen
    split
    · exact hle
    · split
      · rename_i hcap
        have hne : ((CandidateBuffer.cleanup now b).1).map ≠ [] := by
          intro hnil
          rw [hnil] at hcap
          have := Nat.lt_of_lt_of_le hpos (hms ▸ hcap.1)
          simp at this
        rcases minSeen_spec _ hne with ⟨m, hm, hmem, _⟩
        rw [show evictOldest ((CandidateBuffer.cleanup now b).1).map
            = eraseFirstSeen m ((CandidateBuffer.cleanup now b).1).map by
          unfold evictOldest; rw [hm]]
        have h2 := eraseFirstSeen_length m _ hmem
        simp only [List.length_append, List.length_cons, List.length_nil]
        omega
      · rename_i hcap
        have hlt : ((CandidateBuffer.cleanup now b).1).map.length < b.maxSize := by
          rcases Nat.lt_or_ge ((CandidateBuffer.cleanup now b).1).map.length
              ((CandidateBuffer.cleanup now b).1).maxSize with h | h
          · exact hms ▸ h
          · exact absurd ⟨h, hms ▸ hpos⟩ hcap
        simpa using hlt
  | popBestOp now =>
    show ((CandidateBuffer.pop_best now b).2).map.length ≤ b.maxSize
    have hle := Nat.le_trans (cleanup_length_le now b) hlen
    unfold CandidateBuffer.pop_best
    dsimp only
    rcases hmin : minSeen ((CandidateBuffer.cleanup now b).1).map with _ | m
    · simp only [hmin]
      exact hle
    · simp only [hmin]
      have hne : ((CandidateBuffer.cleanup now b).1).map ≠ [] := by
        intro hnil
        rw [hnil] at hmin
        cases hmin
      rcases minSeen_spec _ hne with ⟨m2, hm2, hmem2, _⟩
      have hm2m : m2 = m := by
        rw [hmin] at hm2
        exact (Option.some.inj hm2).symm
      subst hm2m
      have h2 := eraseFirstSeen_length m2 _ hmem2
      show (eraseFirstSeen m2 ((CandidateBuffer.cleanup now b).1).map).length ≤ b.maxSize
      omega
  | cleanupOp now => exact Nat.le_trans (cleanup_length_le now b) hlen

/-- Buffer operation sequences leave `maxSize` unchanged. -/
theorem applyBufOps_maxSize (ops : List BufOp) :
    ∀ b : CandidateBuffer, (applyBufOps b ops).maxSize = b.maxSize := by
  induction ops with
  | nil => intro b; rfl
  | cons op ops ih =>
    intro b
    show (applyBufOps (applyBufOp b op) ops).maxSize = b.maxSize
    rw [ih (applyBufOp b op), applyBufOp_maxSize]

/-- Buffer operation sequences keep the map within a positive `maxSize`. -/
theorem applyBufOps_length_le (ops : List BufOp) :
    ∀ b : CandidateBuffer, b.map.length ≤ b.maxSize → 0 < b.maxSize →
      (applyBufOps b ops).map.length ≤ b.maxSize := by
  induction ops with
  | nil => intro b h _; exact h
  | cons op ops ih =>
    intro b h hpos
    have h1 := applyBufOp_length b op h hpos
    have h2 := applyBufOp_maxSize b op
    have h3 := ih (applyBufOp b op) (by rw [h2]; exact h1) (by rw [h2]; exact hpos)
    rw [h2] at h3
    exact h3

/-- C8 (amended): for every sequence of push, pop_best and cleanup
operations and every configured max_size GREATER THAN ZERO, the candidate
buffer holds at most max_size entries after each operation returns; when
a push finds the (cleaned) buffer at capacity it evicts an entry with the
smallest `seen_at` before inserting. (With max_size = 0 the capacity
bound is not enforced; see the counterexample.) -/
theorem C8_size_bound_and_oldest_eviction :
    (∀ ttl M : Nat, 0 < M → ∀ ops : List BufOp,
      (applyBufOps (CandidateBuffer.new ttl M) ops).map.length ≤ M)
    ∧ (∀ (b : CandidateBuffer) (c : PremintCandidate) (now : Nat),
        (((CandidateBuffer.cleanup now b).1).map.any fun e => e.1 = c.mint) = false →
        ((CandidateBuffer.cleanup now b).1).maxSize
            ≤ ((CandidateBuffer.cleanup now b).1).map.length →
        0 < ((CandidateBuffer.cleanup now b).1).maxSize →
        ∃ e ∈ ((CandidateBuffer.cleanup now b).1).map,
          (∀ e2 ∈ ((CandidateBuffer.cleanup now b).1).map, e.2.2 ≤ e2.2.2) ∧
          ((CandidateBuffer.push c now b).2).map
            = eraseFirstSeen e.2.2 ((CandidateBuffer.cleanup now b).1).map
                ++ [(c.mint, c, now)]) := by
  constructor
  · intro ttl M hM ops
    exact applyBufOps_length_le ops (CandidateBuffer.new ttl M) (Nat.zero_le M) hM
  · intro b c now hdup hcap hpos
    have hne : ((CandidateBuffer.cleanup now b).1).map ≠ [] := by
      intro hnil
      rw [hnil] at hcap
      simp only [List.length_nil, Nat.le_zero] at hcap
      rw [hcap] at hpos
      exact Nat.lt_irrefl 0 hpos
    rcases minSeen_spec _ hne with ⟨m, hm, ⟨e, he, hem⟩, hmin⟩
    refine ⟨e, he, ?_, ?_⟩
    · intro e2 he2
      rw [hem]
      exact hmin e2 he2
    · unfold CandidateBuffer.push
      dsimp only
      rw [if_neg (by rw [hdup]; exact Bool.false_ne_true)]
      rw [if_pos ⟨hcap, hpos⟩]
      show evictOldest ((CandidateBuffer.cleanup now b).1).map ++ [(c.mint, c, now)]
        = eraseFirstSeen e.2.2 ((CandidateBuffer.cleanup now b).1).map ++ [(c.mint, c, now)]
      rw [show evictOldest ((CandidateBuffer.cleanup now b).1).map
          = eraseFirstSeen m ((CandidateBuffer.cleanup now b).1).map by
        unfold evictOldest; rw [hm]]
      rw [hem]

/-- Witness for C8 at a concrete input: capacity 1, two pushes of
distinct mints; the buffer ends with one entry. -/
theorem C8_size_bound_and_oldest_eviction_witness :
    0 < 1
    ∧ (applyBufOps (CandidateBuffer.new 5 1)
        [BufOp.pushOp ⟨1, 1, "pump.fun", 0, 0⟩ 0,
         BufOp.pushOp ⟨2, 2, "pump.fun", 0, 1⟩ 1]).map.length ≤ 1 :=
  ⟨by decide,
    C8_size_bound_and_oldest_eviction.1 5 1 (by decide)
      [BufOp.pushOp ⟨1, 1, "pump.fun", 0, 0⟩ 0,
       BufOp.pushOp ⟨2, 2, "pump.fun", 0, 1⟩ 1]⟩

/-- C8 counterexample: with `max_size = 0` the eviction guard
`len ≥ max_size && max_size > 0` never fires, so a push still inserts and
the buffer exceeds its configured maximum size. -/
theorem C8_maxsize_zero_unbounded :
    ((CandidateBuffer.push ⟨7, 8, "pump.fun", 0, 0⟩ 0
        (CandidateBuffer.new 1000 0)).2).map.length = 1
    ∧ ¬ (((CandidateBuffer.push ⟨7, 8, "pump.fun", 0, 0⟩ 0
        (CandidateBuffer.new 1000 0)).2).map.length
          ≤ (CandidateBuffer.new 1000 0).maxSize) := by
  exact ⟨rfl, by decide⟩

/-! ## Execution engine (`buy_engine.rs`, `types.rs`)

`f64` state is modelled as exact rationals; `f64::EPSILON` is `2⁻⁵²`. -/

/-- `Mode` from `types.rs` (lines 20-24). -/
inductive Mode where
  | sniffing
  | passiveToken (mint : Mint)
  deriving DecidableEq, Repr

/-- `AppState` from `types.rs` (lines 26-32). -/
structure AppState where
  mode : Mode
  active_token : Option PremintCandidate
  last_buy_price : Option ℚ
  holdings_percent : ℚ
  deriving DecidableEq, Repr

/-- `f64::EPSILON` = 2⁻⁵², the threshold the sell path compares the new
holdings against. -/
def f64_epsilon : ℚ := 1 / 2 ^ 52

/-- Rust `f64::clamp(lo, hi)`. -/
def rat_clamp (x lo hi : ℚ) : ℚ := min (max x lo) hi

/-- Modelled from the spec: `validator().validate_holdings_percent` — the
`security` module the engine calls is not among the sources. The spec's
sell step says "Validate the result is finite and within range — any
overflow/NaN is a fatal logic error"; in exact rational arithmetic
finiteness is automatic, so the check is `0 ≤ x ≤ 1`. -/
def validate_holdings_percent (x : ℚ) : Except String ℚ :=
  if 0 ≤ x ∧ x ≤ 1 then Except.ok x
  else Except.error "holdings percent out of range"

/-- `BuyEngine::sell` from `buy_engine.rs` (lines 149-216), as a function
of the current state, the requested percent, the result of
`create_sell_transaction`, and the broadcaster's reply. Returns the
`Result` and the (possibly updated) state. The control flow follows the
source: validate the clamped percent; fail fast when not in
`PassiveToken` or when no active token; validate
`new_holdings = max(current × (1 − pct), 0)`; build the sell transaction;
broadcast; on success write the new holdings and, when they are at most
`f64::EPSILON`, return to `Sniffing` clearing `active_token` and
`last_buy_price`; on failure surface the error with the state
unchanged. -/
def sell (st : AppState) (percent : ℚ) (sellTx : Except String Unit)
    (broadcast : Except String Sig) : Except String Unit × AppState :=
  match validate_holdings_percent (rat_clamp percent 0 1) with
  | Except.error e => (Except.error ("Invalid sell percentage: " ++ e), st)
  | Except.ok pct =>
    match st.mode with
    | Mode.sniffing => (Except.error "not in PassiveToken mode", st)
    | Mode.passiveToken _mint =>
      match st.active_token with
      | none => (Except.error "no active token in AppState", st)
      | some _candidate =>
        match validate_holdings_percent (max (st.holdings_percent * (1 - pct)) 0) with
        | Except.error e => (Except.error ("Holdings calculation error: " ++ e), st)
        | Except.ok new_holdings =>
          match sellTx with
          | Except.error e => (Except.error e, st)
          | Except.ok _ =>
            match broadcast with
            | Except.error e => (Except.error e, st)
            | Except.ok _sig =>
              let st1 := { st with holdings_percent := new_holdings }
              if st1.holdings_percent ≤ f64_epsilon then
                (Except.ok (),
                  { st1 with mode := Mode.sniffing, active_token := none,
                             last_buy_price := none })
              else
                (Except.ok (), st1)

/-- `BuyEngine::is_candidate_interesting` (`buy_engine.rs` lines 218-220). -/
def is_candidate_interesting (c : PremintCandidate) : Bool :=
  c.program == "pump.fun"

/-- `BuyEngine::get_execution_price_mock` (`buy_engine.rs` lines 222-224):
the quoted execution price, constantly `1.0`. -/
def get_execution_price_mock : ℚ := 1

/-- The per-candidate body of `BuyEngine::run`'s Sniffing branch
(`buy_engine.rs` lines 54-121), as a function of the security-validation
and rate-limit verdicts (external `validator()` calls) and of the
`try_buy` result: rejected or filtered candidates leave the state
untouched; a successful buy enters `PassiveToken` recording the
candidate, the quoted price and full holdings; a failed buy leaves the
state untouched. -/
def process_candidate (st : AppState) (c : PremintCandidate)
    (validationOk rateLimitOk : Bool) (buyResult : Except String Sig) :
    AppState :=
  if validationOk then
    if rateLimitOk then
      if is_candidate_interesting c then
        match buyResult with
        | Except.ok _sig =>
          { st with mode := Mode.passiveToken c.mint,
                    active_token := some c,
                    last_buy_price := some get_execution_price_mock,
                    holdings_percent := 1 }
        | Except.error _ => st
      else st
    else st
  else st

/-- The clamped percent always passes the holdings validator. -/
theorem validate_clamp_ok (x : ℚ) :
    validate_holdings_percent (rat_clamp x 0 1)
      = Except.ok (rat_clamp x 0 1) := by
  unfold validate_holdings_percent rat_clamp
  rw [if_pos]
  exact ⟨le_min (le_max_right x 0) zero_le_one, min_le_right _ 1⟩

/-- The computed new holdings pass the validator whenever the current
holdings and the clamped percent lie in `[0, 1]`. -/
theorem validate_new_holdings_ok (h p : ℚ) (h0 : 0 ≤ h) (h1 : h ≤ 1)
    (hp0 : 0 ≤ p) (hp1 : p ≤ 1) :
    validate_holdings_percent (max (h * (1 - p)) 0)
      = Except.ok (max (h * (1 - p)) 0) := by
  unfold validate_holdings_percent
  rw [if_pos]
  refine ⟨le_max_right _ 0, max_le ?_ zero_le_one⟩
  nlinarith

/-- Bounds of the clamped percent. -/
theorem rat_clamp_mem (x : ℚ) : 0 ≤ rat_clamp x 0 1 ∧ rat_clamp x 0 1 ≤ 1 :=
  ⟨le_min (le_max_right x 0) zero_le_one, min_le_right _ 1⟩

/-- C2: for every sell(percent) call made while the engine is in
PassiveToken mode (with an active token, in-range holdings, and a built
sell transaction): if the broadcaster call succeeds, `holdings_percent`
is set to the computed `new_holdings` and, when `new_holdings` is at most
machine epsilon, the mode transitions to Sniffing with `active_token` and
`last_buy_price` cleared; if the broadcaster call fails, the `AppState`
is left entirely unchanged and the error is returned. -/
theorem C2_sell_updates_on_success_only (st : AppState) (m : Mint)
    (c : PremintCandidate) (percent : ℚ) (sellTx : Except String Unit)
    (broadcast : Except String Sig)
    (hmode : st.mode = Mode.passiveToken m)
    (hactive : st.active_token = some c)
    (h0 : 0 ≤ st.holdings_percent) (h1 : st.holdings_percent ≤ 1)
    (htx : sellTx = Except.ok ()) :
    (∀ sig, broadcast = Except.ok sig →
      (sell st percent sellTx broadcast).1 = Except.ok ()
      ∧ ((sell st percent sellTx broadcast).2).holdings_percent
          = max (st.holdings_percent * (1 - rat_clamp percent 0 1)) 0
      ∧ (max (st.holdings_percent * (1 - rat_clamp percent 0 1)) 0 ≤ f64_epsilon →
          ((sell st percent sellTx broadcast).2).mode = Mode.sniffing
          ∧ ((sell st percent sellTx broadcast).2).active_token = none
          ∧ ((sell st percent sellTx broadcast).2).last_buy_price = none))
    ∧ (∀ e, broadcast = Except.error e →
        (sell st percent sellTx broadcast).1 = Except.error e
        ∧ (sell st percent sellTx broadcast).2 = st) := by
  have hv1 := validate_clamp_ok percent
  have hp := rat_clamp_mem percent
  have hv2 := validate_new_holdings_ok st.holdings_percent
    (rat_clamp percent 0 1) h0 h1 hp.1 hp.2
  constructor
  · intro sig hb
    subst hb
    subst htx
    unfold sell
    rw [hv1]
    dsimp only
    rw [hmode, hactive, hv2]
    dsimp only
    split
    · exact ⟨rfl, rfl, fun _ => ⟨rfl, rfl, rfl⟩⟩
    · rename_i hgt
      refine ⟨rfl, rfl, fun hle => absurd hle hgt⟩
  · intro e hb
    subst hb
    subst htx
    unfold sell
    rw [hv1]
    dsimp only
    rw [hmode, hactive, hv2]
    exact ⟨rfl, rfl⟩

/-- A concrete candidate for the engine scenarios. -/
def sellTestCandidate : PremintCandidate :=
  { mint := 5, creator := 6, program := "pump.fun", slot := 1, timestamp := 2 }

/-- A concrete PassiveToken state holding `sellTestCandidate`. -/
def sellTestState : AppState :=
  { mode := Mode.passiveToken 5, active_token := some sellTestCandidate,
    last_buy_price := some 1, holdings_percent := 1 }

/-- Witness for C2: selling 100% from a full position with a succeeding
broadcaster returns the engine to Sniffing. -/
theorem C2_sell_updates_on_success_only_witness :
    sellTestState.mode = Mode.passiveToken 5
    ∧ sellTestState.active_token = some sellTestCandidate
    ∧ (0 : ℚ) ≤ sellTestState.holdings_percent
    ∧ sellTestState.holdings_percent ≤ 1
    ∧ ((sell sellTestState 1 (Except.ok ())
          (Except.ok (List.replicate 64 7))).2).mode = Mode.sniffing
    ∧ ((sell sellTestState 1 (Except.ok ())
          (Except.ok (List.replicate 64 7))).2).active_token = none :=
  ⟨rfl, rfl, by norm_num [sellTestState], by norm_num [sellTestState],
    (((C2_sell_updates_on_success_only sellTestState 5 sellTestCandidate 1
        (Except.ok ()) (Except.ok (List.replicate 64 7)) rfl rfl
        (by norm_num [sellTestState]) (by norm_num [sellTestState]) rfl).1
      (List.replicate 64 7) rfl).2.2
      (by norm_num [sellTestState, rat_clamp, f64_epsilon])).1,
    (((C2_sell_updates_on_success_only sellTestState 5 sellTestCandidate 1
        (Except.ok ()) (Except.ok (List.replicate 64 7)) rfl rfl
        (by norm_num [sellTestState]) (by norm_num [sellTestState]) rfl).1
      (List.replicate 64 7) rfl).2.2
      (by norm_num [sellTestState, rat_clamp, f64_epsilon])).2.1⟩

/-- C3: a candidate that passes security validation, the rate limit and
the program filter and whose buy attempt succeeds moves the engine from
Sniffing to `PassiveToken(c.mint)` with `active_token = Some c`,
`last_buy_price = Some(quoted price)` and `holdings_percent = 1.0`; when
the buy attempt fails the state is unchanged and the engine remains in
Sniffing. -/
theorem C3_buy_transition (st : AppState) (c : PremintCandidate)
    (validationOk rateLimitOk : Bool) (buyResult : Except String Sig)
    (hsniff : st.mode = Mode.sniffing)
    (hval : validationOk = true) (hrl : rateLimitOk = true)
    (hprog : c.program = "pump.fun") :
    (∀ sig, buyResult = Except.ok sig →
      process_candidate st c validationOk rateLimitOk buyResult
        = { st with mode := Mode.passiveToken c.mint,
                    active_token := some c,
                    last_buy_price := some get_execution_price_mock,
                    holdings_percent := 1 })
    ∧ (∀ e, buyResult = Except.error e →
        process_candidate st c validationOk rateLimitOk buyResult = st
        ∧ (process_candidate st c validationOk rateLimitOk buyResult).mode
            = Mode.sniffing) := by
  subst hval
  subst hrl
  constructor
  · intro sig hb
    subst hb
    unfold process_candidate
    simp [is_candidate_interesting, hprog]
  · intro e hb
    subst hb
    unfold process_candidate
    simp [is_candidate_interesting, hprog, hsniff]

/-- The engine's initial state: Sniffing, no token, no price, zero
holdings. -/
def initialAppState : AppState :=
  { mode := Mode.sniffing, active_token := none, last_buy_price := none,
    holdings_percent := 0 }

/-- Witness for C3: a successful buy of the concrete candidate from the
initial state enters PassiveToken(5) with full holdings. -/
theorem C3_buy_transition_witness :
    initialAppState.mode = Mode.sniffing
    ∧ (true = true) ∧ (true = true)
    ∧ sellTestCandidate.program = "pump.fun"
    ∧ process_candidate initialAppState sellTestCandidate true true
        (Except.ok (List.replicate 64 9))
      = { mode := Mode.passiveToken 5, active_token := some sellTestCandidate,
          last_buy_price := some get_execution_price_mock,
          holdings_percent := 1 } :=
  ⟨rfl, rfl, rfl, rfl,
    (C3_buy_transition initialAppState sellTestCandidate true true
        (Except.ok (List.replicate 64 9)) rfl rfl rfl rfl).1
      (List.replicate 64 9) rfl⟩

/-- Evaluation of the sell success path in PassiveToken mode: with a
built transaction and a succeeding broadcaster the result is determined
by whether the new holdings are at most epsilon. -/
theorem sell_eval_passive (st : AppState) (m : Mint) (c : PremintCandidate)
    (percent : ℚ) (sig : Sig)
    (hmode : st.mode = Mode.passiveToken m)
    (hactive : st.active_token = some c)
    (h0 : 0 ≤ st.holdings_percent) (h1 : st.holdings_percent ≤ 1) :
    sell st percent (Except.ok ()) (Except.ok sig)
      = if max (st.holdings_percent * (1 - rat_clamp percent 0 1)) 0 ≤ f64_epsilon
        then (Except.ok (),
          { mode := Mode.sniffing, active_token := none, last_buy_price := none,
            holdings_percent :=
              max (st.holdings_percent * (1 - rat_clamp percent 0 1)) 0 })
        else (Except.ok (),
          { st with holdings_percent := max (st.holdings_percent * (1 - rat_clamp percent 0 1)) 0 }) := by
  have hpcl := rat_clamp_mem percent
  have hv2 := validate_new_holdings_ok st.holdings_percent
    (rat_clamp percent 0 1) h0 h1 hpcl.1 hpcl.2
  unfold sell
  rw [validate_clamp_ok]
  dsimp only
  rw [hmode, hactive, hv2]

/-- The invariant exactly as the claim states it: Sniffing iff no active
token iff zero holdings, and in PassiveToken the active token's mint
matches the variant's mint. -/
def engine_invariant_claimed (st : AppState) : Prop :=
  (st.mode = Mode.sniffing ↔ st.active_token = none)
  ∧ (st.mode = Mode.sniffing ↔ st.holdings_percent = 0)
  ∧ ∀ m, st.mode = Mode.passiveToken m →
      ∃ c, st.active_token = some c ∧ c.mint = m

/-- The invariant the code actually maintains: the holdings biconditional
is weakened from `= 0.0` to `≤ ε`, because the sell path writes
`new_holdings` BEFORE the `≤ ε` check and does not zero it when
transitioning to Sniffing. -/
def engine_invariant_amended (st : AppState) : Prop :=
  (st.mode = Mode.sniffing ↔ st.active_token = none)
  ∧ (st.mode = Mode.sniffing ↔ st.holdings_percent ≤ f64_epsilon)
  ∧ (∀ m, st.mode = Mode.passiveToken m →
      ∃ c, st.active_token = some c ∧ c.mint = m)
  ∧ 0 ≤ st.holdings_percent ∧ st.holdings_percent ≤ 1

/-- C4 counterexample: from a full PassiveToken position satisfying the
claimed invariant, selling the representable fraction `1 − 2⁻⁵³` with a
succeeding broadcaster leaves `new_holdings = 2⁻⁵³ ≤ ε`, so the engine
transitions to Sniffing — but `holdings_percent` is `2⁻⁵³ ≠ 0.0`, so the
claimed `Sniffing ⟺ holdings_percent = 0.0` biconditional fails. -/
theorem C4_sniffing_with_nonzero_holdings :
    engine_invariant_claimed sellTestState
    ∧ ((sell sellTestState (1 - 1 / 2 ^ 53) (Except.ok ())
          (Except.ok (List.replicate 64 7))).2).mode = Mode.sniffing
    ∧ ((sell sellTestState (1 - 1 / 2 ^ 53) (Except.ok ())
          (Except.ok (List.replicate 64 7))).2).holdings_percent = 1 / 2 ^ 53
    ∧ ¬ engine_invariant_claimed
        ((sell sellTestState (1 - 1 / 2 ^ 53) (Except.ok ())
          (Except.ok (List.replicate 64 7))).2) := by
  have hcl : rat_clamp (1 - 1 / 2 ^ 53 : ℚ) 0 1 = 1 - 1 / 2 ^ 53 := by
    unfold rat_clamp
    rw [max_eq_left (by norm_num : (0 : ℚ) ≤ 1 - 1 / 2 ^ 53)]
    exact min_eq_left (by norm_num)
  have hnew : max (sellTestState.holdings_percent
      * (1 - rat_clamp (1 - 1 / 2 ^ 53) 0 1)) 0 = 1 / 2 ^ 53 := by
    rw [hcl, show sellTestState.holdings_percent = 1 from rfl,
      show (1 : ℚ) * (1 - (1 - 1 / 2 ^ 53)) = 1 / 2 ^ 53 by ring]
    exact max_eq_left (by norm_num)
  have hsell : (sell sellTestState (1 - 1 / 2 ^ 53) (Except.ok ())
      (Except.ok (List.replicate 64 7))).2
      = { mode := Mode.sniffing, active_token := none, last_buy_price := none,
          holdings_percent := 1 / 2 ^ 53 } := by
    rw [sell_eval_passive sellTestState 5 sellTestCandidate (1 - 1 / 2 ^ 53)
      (List.replicate 64 7) rfl rfl (by norm_num [sellTestState])
      (by norm_num [sellTestState])]
    rw [hnew, if_pos (by norm_num [f64_epsilon] : (1 : ℚ) / 2 ^ 53 ≤ f64_epsilon)]
  refine ⟨?_, by rw [hsell], by rw [hsell], ?_⟩
  · refine ⟨?_, ?_, ?_⟩
    · constructor
      · intro h
        exact absurd h (by simp [sellTestState])
      · intro h
        exact absurd h (by simp [sellTestState])
    · constructor
      · intro h
        exact absurd h (by simp [sellTestState])
      · intro h
        exact absurd h (by norm_num [sellTestState])
    · intro m hm
      refine ⟨sellTestCandidate, rfl, ?_⟩
      have : (5 : Mint) = m := by
        have hmode : Mode.passiveToken 5 = Mode.passiveToken m := hm
        cases hmode
        rfl
      rw [← this]
      rfl
  · intro h
    rw [hsell] at h
    have h0 := h.2.1.mp rfl
    norm_num at h0

/-- The amended invariant holds at the concrete PassiveToken state. -/
theorem engine_invariant_amended_sellTestState :
    engine_invariant_amended sellTestState := by
  refine ⟨?_, ?_, ?_, by norm_num [sellTestState], by norm_num [sellTestState]⟩
  · constructor
    · intro h
      exact absurd h (by simp [sellTestState])
    · intro h
      exact absurd h (by simp [sellTestState])
  · constructor
    · intro h
      exact absurd h (by simp [sellTestState])
    · intro h
      exact absurd h (by norm_num [sellTestState, f64_epsilon])
  · intro m hm
    refine ⟨sellTestCandidate, rfl, ?_⟩
    have hmode : Mode.passiveToken 5 = Mode.passiveToken m := hm
    cases hmode
    rfl

/-- C4 (amended): the initial state satisfies the amended invariant —
`Sniffing ⟺ active_token = None`, `Sniffing ⟺ holdings_percent ≤ ε`
(not `= 0.0`: the sell path can leave a residue of at most ε when
transitioning to Sniffing), the PassiveToken mint agreement, and
`holdings_percent ∈ [0, 1]` — and every engine operation (candidate
processing with any validation/rate-limit/buy outcome, and sell with any
percent, build and broadcast outcome) preserves it. -/
theorem C4_engine_invariant_preserved :
    engine_invariant_amended initialAppState
    ∧ ∀ st : AppState, engine_invariant_amended st →
      (∀ (c : PremintCandidate) (validationOk rateLimitOk : Bool)
          (buyResult : Except String Sig),
        engine_invariant_amended
          (process_candidate st c validationOk rateLimitOk buyResult))
      ∧ (∀ (percent : ℚ) (sellTx : Except String Unit)
          (broadcast : Except String Sig),
        engine_invariant_amended ((sell st percent sellTx broadcast).2)) := by
  constructor
  · refine ⟨?_, ?_, ?_, by norm_num [initialAppState], by norm_num [initialAppState]⟩
    · exact ⟨fun _ => rfl, fun _ => rfl⟩
    · exact ⟨fun _ => by norm_num [initialAppState, f64_epsilon], fun _ => rfl⟩
    · intro m hm
      exact absurd hm (by simp [initialAppState])
  · intro st hinv
    obtain ⟨hia, hie, hp, hb0, hb1⟩ := hinv
    constructor
    · intro c validationOk rateLimitOk buyResult
      unfold process_candidate
      cases validationOk with
      | false => exact ⟨hia, hie, hp, hb0, hb1⟩
      | true =>
        cases rateLimitOk with
        | false => exact ⟨hia, hie, hp, hb0, hb1⟩
        | true =>
          cases hic : is_candidate_interesting c with
          | false => simp only [hic, if_true, if_false]; exact ⟨hia, hie, hp, hb0, hb1⟩
          | true =>
            simp only [hic, if_true]
            cases buyResult with
            | error e => exact ⟨hia, hie, hp, hb0, hb1⟩
            | ok sig =>
              refine ⟨?_, ?_, ?_, by norm_num, by norm_num⟩
              · constructor
                · intro h
                  exact absurd h (by simp)
                · intro h
                  exact absurd h (by simp)
              · constructor
                · intro h
                  exact absurd h (by simp)
                · intro h
                  exact absurd h (by norm_num [f64_epsilon])
              · intro m hm
                refine ⟨c, rfl, ?_⟩
                have : Mode.passiveToken c.mint = Mode.passiveToken m := hm
                cases this
                rfl
    · intro percent sellTx broadcast
      cases hmode : st.mode with
      | sniffing =>
        have hst : (sell st percent sellTx broadcast).2 = st := by
          unfold sell
          rw [validate_clamp_ok]
          dsimp only
          rw [hmode]
        rw [hst]
        exact ⟨hia, hie, hp, hb0, hb1⟩
      | passiveToken m =>
        obtain ⟨c, hc, hcm⟩ := hp m hmode
        have hpcl := rat_clamp_mem percent
        have hv2 := validate_new_holdings_ok st.holdings_percent
          (rat_clamp percent 0 1) hb0 hb1 hpcl.1 hpcl.2
        have hnew0 : 0 ≤ max (st.holdings_percent * (1 - rat_clamp percent 0 1)) 0 :=
          le_max_right _ 0
        have hnew1 : max (st.holdings_percent * (1 - rat_clamp percent 0 1)) 0 ≤ 1 := by
          refine max_le ?_ zero_le_one
          nlinarith [hpcl.1, hpcl.2]
        unfold sell
        rw [validate_clamp_ok]
        dsimp only
        rw [hmode, hc, hv2]
        dsimp only
        cases sellTx with
        | error e => exact ⟨hia, hie, hp, hb0, hb1⟩
        | ok u =>
          cases broadcast with
          | error e => exact ⟨hia, hie, hp, hb0, hb1⟩
          | ok sig =>
            dsimp only
            split
            · rename_i hle
              refine ⟨⟨fun _ => rfl, fun _ => rfl⟩,
                ⟨fun _ => hle, fun _ => rfl⟩, ?_, hnew0, hnew1⟩
              intro m2 hm2
              exact absurd hm2 (by simp)
            · rename_i hgt
              refine ⟨⟨fun h => absurd h (by simp), fun h => absurd h (by simp)⟩,
                ⟨fun h => absurd h (by simp), fun h => absurd h hgt⟩,
                ?_, hnew0, hnew1⟩
              intro m2 hm2
              have hmm : Mode.passiveToken m = Mode.passiveToken m2 := hm2
              cases hmm
              exact ⟨c, rfl, hcm⟩

/-- Witness for C4: the amended invariant holds at the concrete
PassiveToken state and is preserved by a concrete full sell. -/
theorem C4_engine_invariant_preserved_witness :
    engine_invariant_amended sellTestState
    ∧ engine_invariant_amended
        ((sell sellTestState 1 (Except.ok ())
          (Except.ok (List.replicate 64 7))).2) :=
  ⟨engine_invariant_amended_sellTestState,
    ((C4_engine_invariant_preserved.2 sellTestState
        engine_invariant_amended_sellTestState).2 1 (Except.ok ())
      (Except.ok (List.replicate 64 7)))⟩

/-! ## Buy attempt lease accounting (`buy_engine.rs`, `try_buy`) -/

/-- Outcome of one `try_buy` call together with the slot-lease traffic it
generated: the indices acquired from the slot-lease manager and the
indices explicitly released back (`release_nonce` calls). -/
structure TryBuyResult where
  result : Except String Sig
  acquired : List Nat
  released : List Nat

/-- The acquisition loop of `BuyEngine::try_buy` (`buy_engine.rs` lines
244-258): iteration `i` acquires a slot (`acq i` is the granted index,
`none` models an acquisition failure, which only breaks the loop), then
builds one transaction (`build i`); a builder error propagates
immediately through the `?` operator. Returns the acquired indices, the
number of prepared transactions, and the early builder error if one
occurred. -/
def try_buy_loop (acq : Nat → Option Nat) (build : Nat → Except String Unit) :
    Nat → Nat → List Nat × Nat × Option String
  | _, 0 => ([], 0, none)
  | i, n + 1 =>
    match acq i with
    | none => ([], 0, none)
    | some idx =>
      match build i with
      | Except.error e => ([idx], 0, some e)
      | Except.ok _ =>
        match try_buy_loop acq build (i + 1) n with
        | (rest, txs, err) => (idx :: rest, txs + 1, err)

/-- `BuyEngine::try_buy` (`buy_engine.rs` lines 226-282): run the
acquisition loop for `nonce_count` iterations; when a builder error
escaped through `?`, the function returns WITHOUT releasing anything;
when no transactions were prepared, release all acquired indices and
fail; otherwise broadcast, then release all acquired indices and return
the broadcast result. -/
def try_buy (K : Nat) (acq : Nat → Option Nat)
    (build : Nat → Except String Unit) (broadcast : Except String Sig) :
    TryBuyResult :=
  match try_buy_loop acq build 0 K with
  | (acquired, _, some e) =>
    { result := Except.error e, acquired := acquired, released := [] }
  | (acquired, txs, none) =>
    if txs = 0 then
      { result := Except.error "no transactions prepared (no nonces acquired)",
        acquired := acquired, released := acquired }
    else
      { result := broadcast, acquired := acquired, released := acquired }

/-- C6: evaluation of the code at the failing input. With `nonce_count`
= 2, both acquisitions granting indices 0 and 1 but the second builder
call failing, `try_buy` returns the builder error having released
NOTHING although it acquired `[0, 1]` — the `?` on
`create_buy_transaction` skips the release loop. By contrast, when every
build succeeds the acquired indices are all released. -/
theorem C6_builder_error_leaks_leases :
    (try_buy 2 (fun i => some i)
        (fun i => if i = 0 then Except.ok () else Except.error "builder failed")
        (Except.ok (List.replicate 64 7))).acquired = [0, 1]
    ∧ (try_buy 2 (fun i => some i)
        (fun i => if i = 0 then Except.ok () else Except.error "builder failed")
        (Except.ok (List.replicate 64 7))).released = []
    ∧ (try_buy 2 (fun i => some i)
        (fun i => if i = 0 then Except.ok () else Except.error "builder failed")
        (Except.ok (List.replicate 64 7))).result = Except.error "builder failed"
    ∧ (try_buy 2 (fun i => some i) (fun _ => Except.ok ())
        (Except.ok (List.replicate 64 7))).acquired = [0, 1]
    ∧ (try_buy 2 (fun i => some i) (fun _ => Except.ok ())
        (Except.ok (List.replicate 64 7))).released = [0, 1] := by
  refine ⟨rfl, rfl, rfl, rfl, rfl⟩

/-! ## Transaction builder (`tx_builder.rs`) -/

/-- The fields of `TransactionConfig` (`tx_builder.rs` lines 45-75) that
`validate` and `build_buy_transaction` consult; the HTTP-provider and
Jito fields, which the modelled paths never read, are omitted. -/
structure TransactionConfig where
  priority_fee_lamports : Nat
  compute_unit_limit : Nat
  buy_amount_lamports : Nat
  slippage_percent : ℚ
  rpc_endpoints : List String
  rpc_retry_attempts : Nat
  rpc_timeout_ms : Nat
  nonce_count : Nat
  deriving DecidableEq, Repr

/-- `TransactionConfig::default` (`tx_builder.rs` lines 77-97). -/
def TransactionConfig.default : TransactionConfig :=
  { priority_fee_lamports := 10000
    compute_unit_limit := 200000
    buy_amount_lamports := 10000000
    slippage_percent := 10
    rpc_endpoints := ["https://api.mainnet-beta.solana.com"]
    rpc_retry_attempts := 3
    rpc_timeout_ms := 8000
    nonce_count := 5 }

/-- `TransactionConfig::validate` (`tx_builder.rs` lines 100-122). -/
def TransactionConfig.validate (c : TransactionConfig) : Except String Unit :=
  if c.buy_amount_lamports = 0 then
    Except.error "buy_amount_lamports must be > 0"
  else if ¬ (0 ≤ c.slippage_percent ∧ c.slippage_percent ≤ 100) then
    Except.error "slippage_percent must be in 0.0..=100.0"
  else if c.rpc_endpoints = [] then
    Except.error "rpc_endpoints must contain at least one endpoint"
  else if c.nonce_count = 0 then
    Except.error "nonce_count must be > 0"
  else Except.ok ()

/-- The instructions `build_buy_transaction` assembles, as far as the
claim observes them: the compute-budget prelude and the program-specific
(or memo-fallback) buy instruction. -/
inductive Instruction where
  | setComputeUnitLimit (units : Nat)
  | setComputeUnitPrice (microLamports : Nat)
  | programBuyInstruction
  deriving DecidableEq, Repr

/-- A built transaction together with the number of `acquire_nonce`
calls the build made on the slot-lease manager. -/
structure BuiltTransaction where
  instructions : List Instruction
  nonce_acquisitions : Nat
  deriving DecidableEq, Repr

/-- `TransactionBuilder::build_buy_transaction` (`tx_builder.rs` lines
290-367): validate the config; ACQUIRE ONE NONCE LEASE from the
slot-lease manager (`_nonce_guard`, line 304; `nonceOk` says whether the
acquisition succeeded); fetch a recent blockhash (`blockhashOk`); push
the compute-unit-limit and compute-unit-price instructions when the
corresponding config values are positive; then the program-specific buy
instruction (`buyIx` carries its fallible construction). Message
compilation and signing are not modelled. `nonce_acquisitions` counts
the acquisitions performed. -/
def build_buy_transaction (config : TransactionConfig)
    (candidate : PremintCandidate) (nonceOk blockhashOk : Bool)
    (buyIx : Except String Unit) : Except String BuiltTransaction :=
  match config.validate with
  | Except.error e => Except.error e
  | Except.ok _ =>
    if nonceOk then
      if blockhashOk then
        match buyIx with
        | Except.error e => Except.error e
        | Except.ok _ =>
          Except.ok
            { instructions :=
                (if 0 < config.compute_unit_limit then
                  [Instruction.setComputeUnitLimit config.compute_unit_limit]
                else [])
                ++ (if 0 < config.priority_fee_lamports then
                  [Instruction.setComputeUnitPrice config.priority_fee_lamports]
                else [])
                ++ [Instruction.programBuyInstruction]
              nonce_acquisitions := 1 }
      else Except.error "Blockhash fetch failed"
    else Except.error "Nonce acquisition failed"

/-- C10 counterexample: at the default configuration the builder DOES
consume slot authority — the successful build performs exactly one
`acquire_nonce` call on the slot-lease manager, refuting the claim's
"does not acquire a slot from the slot-lease manager while building". -/
theorem C10_builder_acquires_a_slot :
    build_buy_transaction TransactionConfig.default sellTestCandidate true true
        (Except.ok ())
      = Except.ok
          { instructions := [Instruction.setComputeUnitLimit 200000,
              Instruction.setComputeUnitPrice 10000,
              Instruction.programBuyInstruction]
            nonce_acquisitions := 1 }
    ∧ (1 : Nat) ≠ 0 := by
  refine ⟨rfl, by decide⟩

/-- C10 (amended): every successful `build_buy` includes the
compute-unit-limit and compute-unit-price prelude instructions whenever
the corresponding config values are nonzero, and the builder acquires
exactly ONE slot lease from the slot-lease manager while building
(released when the guard drops), rather than none. -/
theorem C10_prelude_and_one_lease (config : TransactionConfig)
    (candidate : PremintCandidate) (nonceOk blockhashOk : Bool)
    (buyIx : Except String Unit) (bt : BuiltTransaction)
    (hbt : build_buy_transaction config candidate nonceOk blockhashOk buyIx
      = Except.ok bt) :
    (0 < config.compute_unit_limit →
      Instruction.setComputeUnitLimit config.compute_unit_limit
        ∈ bt.instructions)
    ∧ (0 < config.priority_fee_lamports →
      Instruction.setComputeUnitPrice config.priority_fee_lamports
        ∈ bt.instructions)
    ∧ bt.nonce_acquisitions = 1 := by
  unfold build_buy_transaction at hbt
  rcases hv : config.validate with e | u
  · rw [hv] at hbt
    cases hbt
  · rw [hv] at hbt
    dsimp only at hbt
    cases nonceOk with
    | false => cases hbt
    | true =>
      cases blockhashOk with
      | false => cases hbt
      | true =>
        cases buyIx with
        | error e => cases hbt
        | ok v =>
          dsimp only at hbt
          cases hbt
          refine ⟨?_, ?_, rfl⟩
          · intro h
            simp [if_pos h, List.mem_append]
          · intro h
            by_cases hcl : 0 < TransactionConfig.compute_unit_limit config <;>
              simp [hcl, if_pos h, List.mem_append]

/-- Witness for C10 at the default configuration: the built transaction
contains both prelude instructions and records one lease acquisition. -/
theorem C10_prelude_and_one_lease_witness :
    build_buy_transaction TransactionConfig.default sellTestCandidate true true
        (Except.ok ())
      = Except.ok
          { instructions := [Instruction.setComputeUnitLimit 200000,
              Instruction.setComputeUnitPrice 10000,
              Instruction.programBuyInstruction]
            nonce_acquisitions := 1 }
    ∧ Instruction.setComputeUnitLimit TransactionConfig.default.compute_unit_limit
        ∈ [Instruction.setComputeUnitLimit 200000,
            Instruction.setComputeUnitPrice 10000,
            Instruction.programBuyInstruction]
    ∧ (1 : Nat) = 1 := by
  have hbt : build_buy_transaction TransactionConfig.default sellTestCandidate
      true true (Except.ok ())
      = Except.ok
          { instructions := [Instruction.setComputeUnitLimit 200000,
              Instruction.setComputeUnitPrice 10000,
              Instruction.programBuyInstruction]
            nonce_acquisitions := 1 } := rfl
  exact ⟨hbt,
    (C10_prelude_and_one_lease TransactionConfig.default sellTestCandidate
      true true (Except.ok ()) _ hbt).1 (by decide),
    (C10_prelude_and_one_lease TransactionConfig.default sellTestCandidate
      true true (Except.ok ()) _ hbt).2.2⟩
